import Mathlib

/-!
Shallow embedding of `rs-pg-maintenance-analyze` (src/src/lib.rs and
src/examples/api/pg-maintenance-analyze/src/main.rs).

The library validates caller-supplied table names against the database
catalog (`information_schema.tables`) before interpolating them into an
`ANALYZE` statement.  Database effects are modelled by explicit result
functions (`exists_result`, `analyze_result`) standing for the driver's
answers, and every operation additionally returns the list of `Event`s it
issued against the database, in order.
-/

/-- The distinct error productions of the library.  In Rust all of them are
`io::Error::other` values distinguishable only by their message text;
`message` below reproduces those format strings. -/
inductive IoError where
  | notFound (tableName : String)
  | unexpectedValue (i : Int)
  | infra (msg : String)
  | nullTableName
deriving DecidableEq, Repr

/-- The Rust message text carried by each error (`format!` strings in lib.rs). -/
def IoError.message : IoError → String
  | .notFound n => "the table " ++ n ++ " not found"
  | .unexpectedValue i => "unexpected value got: " ++ toString i
  | .infra m => m
  | .nullTableName => "non empty table name expected"

/-- `pub struct UncheckedTableName(pub String)` — caller-supplied raw name. -/
structure UncheckedTableName where
  raw : String
deriving DecidableEq, Repr

/-- `pub struct CheckedTableName(String)` — private field in Rust; only
`check_table_name` constructs one. -/
structure CheckedTableName where
  text : String
deriving DecidableEq, Repr

/-- `CheckedTableName::as_str`. -/
def CheckedTableName.as_str (c : CheckedTableName) : String := c.text

/-- Database events issued by the library, recorded in order. -/
inductive Event where
  | existsCheck (schema : String) (tableName : String)
  | analyzeStmt (stmt : String)
deriving DecidableEq, Repr

/-- The abstract database environment seen through the `TableChecker` trait
and the executor's pool: `exists_result schema name` is what the catalog
existence query answers, `analyze_result name` is what executing
`ANALYZE name` returns. -/
structure MutationEnv where
  exists_result : String → String → Except IoError Bool
  analyze_result : String → Except IoError Unit

/-- `TableChecker::table_exists` at the trait level: issues one catalog
existence lookup and returns the driver's answer. -/
def MutationEnv.table_exists (env : MutationEnv) (schema name : String) :
    Except IoError Bool × List Event :=
  (env.exists_result schema name, [Event.existsCheck schema name])

/-- Blanket `impl TableNameChecker for C where C: TableChecker`:
`check_table_name` queries `table_exists`; on `false` it fails with the
not-found error carrying the raw name; on `true` it wraps the original
text verbatim. -/
def check_table_name (env : MutationEnv) (schema : String)
    (unchecked : UncheckedTableName) : Except IoError CheckedTableName × List Event :=
  let raw_name := unchecked.raw
  let (found?, tr) := env.table_exists schema raw_name
  match found? with
  | .error e => (.error e, tr)
  | .ok found =>
    if !found then (.error (.notFound raw_name), tr)
    else (.ok ⟨unchecked.raw⟩, tr)

/-- `PgAnalyze::analyze`: issues `ANALYZE {name}` with the checked name
interpolated into the statement text, surfacing any driver failure. -/
def PgAnalyze.analyze (env : MutationEnv) (table : CheckedTableName) :
    Except IoError Unit × List Event :=
  (env.analyze_result table.text, [Event.analyzeStmt ("ANALYZE " ++ table.text)])

/-- `MutationRoot::analyze_by_table_name`: validate then execute one name;
`Ok(true)` only when both steps succeed. -/
def analyze_by_table_name (env : MutationEnv) (schema name : String) :
    Except IoError Bool × List Event :=
  match check_table_name env schema ⟨name⟩ with
  | (.error e, tr) => (.error e, tr)
  | (.ok checked, tr) =>
    match PgAnalyze.analyze env checked with
    | (.error e, tr2) => (.error e, tr ++ tr2)
    | (.ok _, tr2) => (.ok true, tr ++ tr2)

/-- `MutationRoot::analyze_tables`: the `for name in names` loop with `?`
on each validation and execution, returning `Ok(true)` after the loop. -/
def analyze_tables (env : MutationEnv) (schema : String) :
    List String → Except IoError Bool × List Event
  | [] => (.ok true, [])
  | name :: rest =>
    match check_table_name env schema ⟨name⟩ with
    | (.error e, tr) => (.error e, tr)
    | (.ok checked, tr) =>
      match PgAnalyze.analyze env checked with
      | (.error e, tr2) => (.error e, tr ++ tr2)
      | (.ok _, tr2) =>
        match analyze_tables env schema rest with
        | (r, tr3) => (r, tr ++ tr2 ++ tr3)

/-- One row of `information_schema.tables` as the existence and listing
queries see it. -/
structure CatalogRow where
  table_schema : String
  table_name : String
deriving DecidableEq, Repr

/-- The rows matched by `table_schema = $1 AND table_name = $2`. -/
def matchingRows (cat : List CatalogRow) (schema name : String) : List CatalogRow :=
  cat.filter fun r => r.table_schema == schema && r.table_name == name

/-- The tail of `PgTabChk::table_exists` applied to the raw driver outcome of
`query_scalar(...).fetch_optional(p)`: a driver error is wrapped as-is;
otherwise the nested option is flattened and `Some(1)` means true,
`Some(i)` is the unexpected-value error, `None` means false. -/
def table_exists_core (driver : Except String (Option (Option Int))) :
    Except IoError Bool :=
  match driver with
  | .error e => .error (.infra e)
  | .ok o =>
    match o.join with
    | some i => if i = 1 then .ok true else .error (.unexpectedValue i)
    | none => .ok false

/-- `PgTabChk::table_exists` against a catalog, with the driver healthy:
the query selects `1::INTEGER` for every matching row and `fetch_optional`
takes the first returned row, if any. -/
def PgTabChk.table_exists (cat : List CatalogRow) (schema name : String) :
    Except IoError Bool :=
  table_exists_core (.ok (((matchingRows cat schema name).map fun _ => some (1 : Int)).head?))

/-- SQL `LIKE` matching (case-sensitive, `%` matches any run, `_` matches
one character), on character lists. -/
def likeMatch : List Char → List Char → Bool
  | [], s => s.isEmpty
  | '%' :: ps, [] => likeMatch ps []
  | '%' :: ps, c :: cs => likeMatch ps (c :: cs) || likeMatch ('%' :: ps) cs
  | '_' :: _, [] => false
  | '_' :: ps, _ :: cs => likeMatch ps cs
  | _ :: _, [] => false
  | p :: ps, c :: cs => (p == c) && likeMatch ps cs
termination_by p s => (s.length, p.length)

/-- SQL `table_name LIKE pattern` on strings. -/
def sqlLike (pattern s : String) : Bool :=
  likeMatch pattern.toList s.toList

/-- The `try_collect` step of `get_table_names`: each fetched scalar is a
nullable `table_name`; a null scalar aborts with the non-empty-name error. -/
def collect_scalars : List (Option String) → Except IoError (List String)
  | [] => .ok []
  | none :: _ => .error .nullTableName
  | some n :: rest =>
    match collect_scalars rest with
    | .error e => .error e
    | .ok ns => .ok (n :: ns)

/-- `PgQuery::get_table_names`: schema defaults to "public", pattern to "%";
the query returns, in catalog order, the (nullable) `table_name` of every
row with `table_schema = $1 AND table_name LIKE $2`, eagerly collected. -/
def get_table_names (cat : List CatalogRow)
    (schema table_name_pattern : Option String) : Except IoError (List String) :=
  let s := schema.getD "public"
  let p := table_name_pattern.getD "%"
  collect_scalars
    ((cat.filter fun r => r.table_schema == s && sqlLike p r.table_name).map
      fun r => some r.table_name)

namespace Api

/-- The environment variable names read by `main.rs`. -/
def connEnvVar : String := "DB_CONNECTION_STRING"

/-- The listen-address environment variable, defaulted when absent. -/
def listenEnvVar : String := "LISTEN_ADDR"

/-- The `.expect` message printed when the connection string is absent. -/
def connMissingMsg : String := "Environment variable DB_CONNECTION_STRING not set"

/-- How `sub()` in main.rs can end: `panicked` when `.expect` fires before any
service work, `failed` when the startup/serve pipeline returns an error,
`served` when it returns `Ok`. -/
inductive SubOutcome where
  | panicked (msg : String)
  | failed (e : IoError)
  | served
deriving DecidableEq, Repr

/-- `sub()`: reads `DB_CONNECTION_STRING` (absence panics via `.expect`),
defaults `LISTEN_ADDR` to `127.0.0.1:8080`, then runs the
connect/sdl-write/bind/serve pipeline, abstracted as `run`. -/
def sub (envVar : String → Option String)
    (run : String → String → Except IoError Unit) : SubOutcome :=
  match envVar connEnvVar with
  | none => .panicked connMissingMsg
  | some conn_str =>
    let listen_addr := (envVar listenEnvVar).getD "127.0.0.1:8080"
    match run conn_str listen_addr with
    | .error e => .failed e
    | .ok _ => .served

/-- `main()`: exit code and what is printed to stderr.  `Ok` maps to
`ExitCode::SUCCESS` (0); `Err(e)` prints `e` and maps to
`ExitCode::FAILURE` (1); a panic unwinds out of `main`, printing the panic
message, and the process exits 101. -/
def main (envVar : String → Option String)
    (run : String → String → Except IoError Unit) : Nat × Option String :=
  match sub envVar run with
  | .panicked msg => (101, some msg)
  | .failed e => (1, some e.message)
  | .served => (0, none)

end Api

/-! Concrete fixtures and environments used by the witnesses and
counterexamples. -/

/-- A catalog double where every table exists and every statement succeeds. -/
def envAllTrue : MutationEnv :=
  { exists_result := fun _ _ => .ok true, analyze_result := fun _ => .ok () }

/-- A catalog double where no table exists. -/
def envAllFalse : MutationEnv :=
  { exists_result := fun _ _ => .ok false, analyze_result := fun _ => .ok () }

/-- A catalog double where only `t1` and `t3` exist and statements succeed. -/
def envT1T3 : MutationEnv :=
  { exists_result := fun _ n => .ok (n == "t1" || n == "t3"),
    analyze_result := fun _ => .ok () }

/-- A (degenerate) catalog holding the same (schema, name) row twice. -/
def dupCatalog : List CatalogRow := [⟨"s", "t"⟩, ⟨"s", "t"⟩]

/-- The catalog fixture of the spec's `GetTableNames` example. -/
def fixtureCatalog : List CatalogRow :=
  [⟨"public", "user_accounts"⟩, ⟨"public", "user_sessions"⟩, ⟨"public", "orders"⟩]

/-- A process environment without any variable set. -/
def envNone : String → Option String := fun _ => none

/-- A startup/serve pipeline that succeeds. -/
def runOk : String → String → Except IoError Unit := fun _ _ => .ok ()

/-! Helper lemmas characterizing the pipeline, shared by the claims. -/

lemma check_table_name_driver_err (env : MutationEnv) (schema n : String) (e : IoError)
    (h : env.exists_result schema n = .error e) :
    check_table_name env schema ⟨n⟩ = (.error e, [Event.existsCheck schema n]) := by
  simp [check_table_name, MutationEnv.table_exists, h]

lemma check_table_name_false (env : MutationEnv) (schema n : String)
    (h : env.exists_result schema n = .ok false) :
    check_table_name env schema ⟨n⟩ = (.error (.notFound n), [Event.existsCheck schema n]) := by
  simp [check_table_name, MutationEnv.table_exists, h]

lemma check_table_name_true (env : MutationEnv) (schema n : String)
    (h : env.exists_result schema n = .ok true) :
    check_table_name env schema ⟨n⟩ = (.ok ⟨n⟩, [Event.existsCheck schema n]) := by
  simp [check_table_name, MutationEnv.table_exists, h]

lemma check_table_name_ok_iff (env : MutationEnv) (schema n : String) (c : CheckedTableName) :
    (check_table_name env schema ⟨n⟩).1 = .ok c ↔
      env.exists_result schema n = .ok true ∧ c = ⟨n⟩ := by
  constructor
  · intro h
    cases he : env.exists_result schema n with
    | error e => rw [check_table_name_driver_err env schema n e he] at h; exact absurd h (by simp)
    | ok b =>
      cases b with
      | false => rw [check_table_name_false env schema n he] at h; exact absurd h (by simp)
      | true =>
        rw [check_table_name_true env schema n he] at h
        exact ⟨rfl, by simpa using h.symm⟩
  · rintro ⟨he, rfl⟩
    rw [check_table_name_true env schema n he]

lemma analyze_tables_cons (env : MutationEnv) (schema n : String) (rest : List String) :
    analyze_tables env schema (n :: rest) =
      match analyze_by_table_name env schema n with
      | (.error e, tr) => (.error e, tr)
      | (.ok _, tr) =>
        ((analyze_tables env schema rest).1, tr ++ (analyze_tables env schema rest).2) := by
  cases he : env.exists_result schema n with
  | error e =>
    simp [analyze_tables, analyze_by_table_name, check_table_name_driver_err env schema n e he]
  | ok b =>
    cases b with
    | false =>
      simp [analyze_tables, analyze_by_table_name, check_table_name_false env schema n he]
    | true =>
      cases ha : env.analyze_result n with
      | error e =>
        simp [analyze_tables, analyze_by_table_name, check_table_name_true env schema n he,
          PgAnalyze.analyze, ha]
      | ok u =>
        simp [analyze_tables, analyze_by_table_name, check_table_name_true env schema n he,
          PgAnalyze.analyze, ha]

lemma string_append_left_cancel {a b c : String} (h : a ++ b = a ++ c) : b = c := by
  have hd : a.data ++ b.data = a.data ++ c.data := by
    have := congrArg String.data h
    simpa [String.data_append] using this
  exact String.ext (List.append_cancel_left hd)

lemma analyze_stmt_mem_abtn (env : MutationEnv) (schema n stmt : String)
    (h : Event.analyzeStmt stmt ∈ (analyze_by_table_name env schema n).2) :
    stmt = "ANALYZE " ++ n ∧ env.exists_result schema n = .ok true ∧
      (check_table_name env schema ⟨n⟩).1 = .ok ⟨n⟩ := by
  cases he : env.exists_result schema n with
  | error e =>
    rw [show (analyze_by_table_name env schema n).2 = [Event.existsCheck schema n] by
      simp [analyze_by_table_name, check_table_name_driver_err env schema n e he]] at h
    simp at h
  | ok b =>
    cases b with
    | false =>
      rw [show (analyze_by_table_name env schema n).2 = [Event.existsCheck schema n] by
        simp [analyze_by_table_name, check_table_name_false env schema n he]] at h
      simp at h
    | true =>
      refine ⟨?_, rfl, by rw [check_table_name_true env schema n he]⟩
      cases ha : env.analyze_result n with
      | error e =>
        rw [show (analyze_by_table_name env schema n).2 =
            [Event.existsCheck schema n, Event.analyzeStmt ("ANALYZE " ++ n)] by
          simp [analyze_by_table_name, check_table_name_true env schema n he,
            PgAnalyze.analyze, ha]] at h
        simpa using h
      | ok u =>
        rw [show (analyze_by_table_name env schema n).2 =
            [Event.existsCheck schema n, Event.analyzeStmt ("ANALYZE " ++ n)] by
          simp [analyze_by_table_name, check_table_name_true env schema n he,
            PgAnalyze.analyze, ha]] at h
        simpa using h

lemma analyze_stmt_mem_tables (env : MutationEnv) (schema stmt : String)
    (names : List String)
    (h : Event.analyzeStmt stmt ∈ (analyze_tables env schema names).2) :
    ∃ n, n ∈ names ∧ stmt = "ANALYZE " ++ n ∧ env.exists_result schema n = .ok true ∧
      (check_table_name env schema ⟨n⟩).1 = .ok ⟨n⟩ := by
  induction names with
  | nil => simp [analyze_tables] at h
  | cons n rest ih =>
    rw [analyze_tables_cons] at h
    rcases hb : analyze_by_table_name env schema n with ⟨r, tr⟩
    rw [hb] at h
    cases r with
    | error e =>
      simp only at h
      obtain ⟨hs, he, hc⟩ := analyze_stmt_mem_abtn env schema n stmt (by rw [hb]; exact h)
      exact ⟨n, List.mem_cons_self n rest, hs, he, hc⟩
    | ok b =>
      simp only [List.mem_append] at h
      rcases h with h | h
      · obtain ⟨hs, he, hc⟩ := analyze_stmt_mem_abtn env schema n stmt (by rw [hb]; exact h)
        exact ⟨n, List.mem_cons_self n rest, hs, he, hc⟩
      · obtain ⟨m, hm, hs, he, hc⟩ := ih h
        exact ⟨m, List.mem_cons_of_mem n hm, hs, he, hc⟩

lemma analyze_by_table_name_eq (env : MutationEnv) (schema n : String) :
    analyze_by_table_name env schema n =
      match env.exists_result schema n with
      | .error e => (.error e, [Event.existsCheck schema n])
      | .ok false => (.error (.notFound n), [Event.existsCheck schema n])
      | .ok true =>
        match env.analyze_result n with
        | .error e =>
          (.error e, [Event.existsCheck schema n, Event.analyzeStmt ("ANALYZE " ++ n)])
        | .ok _ =>
          (.ok true, [Event.existsCheck schema n, Event.analyzeStmt ("ANALYZE " ++ n)]) := by
  cases he : env.exists_result schema n with
  | error e => simp [analyze_by_table_name, check_table_name_driver_err env schema n e he]
  | ok b =>
    cases b with
    | false => simp [analyze_by_table_name, check_table_name_false env schema n he]
    | true =>
      cases ha : env.analyze_result n with
      | error e =>
        simp [analyze_by_table_name, check_table_name_true env schema n he,
          PgAnalyze.analyze, ha]
      | ok u =>
        simp [analyze_by_table_name, check_table_name_true env schema n he,
          PgAnalyze.analyze, ha]

lemma likeMatch_percent (l : List Char) : likeMatch ['%'] l = true := by
  induction l with
  | nil => simp [likeMatch]
  | cons c cs ih => simp [likeMatch, ih]

lemma collect_scalars_names (l : List CatalogRow) :
    collect_scalars (l.map fun r => some r.table_name) =
      .ok (l.map fun r => r.table_name) := by
  induction l with
  | nil => rfl
  | cons a t ih => simp [collect_scalars, ih]

/-- C1: when the catalog reports non-existence, `check_table_name` fails with
the not-found error carrying the rejected name (in its message), and neither
`analyze_by_table_name` nor `analyze_tables` ever issues an `ANALYZE`
statement for that name. -/
theorem spec_C1 (env : MutationEnv) (schema name : String)
    (h : env.exists_result schema name = .ok false) :
    (check_table_name env schema ⟨name⟩).1 = .error (.notFound name) ∧
    (IoError.notFound name).message = "the table " ++ name ++ " not found" ∧
    (∀ st, Event.analyzeStmt st ∉ (analyze_by_table_name env schema name).2) ∧
    (∀ names, Event.analyzeStmt ("ANALYZE " ++ name) ∉ (analyze_tables env schema names).2) := by
  refine ⟨by rw [check_table_name_false env schema name h], rfl, ?_, ?_⟩
  · intro st hmem
    obtain ⟨-, he, -⟩ := analyze_stmt_mem_abtn env schema name st hmem
    rw [h] at he
    exact absurd he (by simp)
  · intro names hmem
    obtain ⟨m, -, hs, he, -⟩ := analyze_stmt_mem_tables env schema _ names hmem
    obtain rfl : name = m := string_append_left_cancel hs
    rw [h] at he
    exact absurd he (by simp)

theorem spec_C1_witness :
    envAllFalse.exists_result "public" "missing" = .ok false ∧
    (check_table_name envAllFalse "public" ⟨"missing"⟩).1 = .error (.notFound "missing") ∧
    Event.analyzeStmt "ANALYZE missing" ∉
      (analyze_tables envAllFalse "public" ["missing"]).2 :=
  ⟨rfl, (spec_C1 envAllFalse "public" "missing" rfl).1,
    (spec_C1 envAllFalse "public" "missing" rfl).2.2.2 ["missing"]⟩

/-- C2: every `ANALYZE` statement issued by either mutation is
`ANALYZE n` for a name `n` on which `table_exists` answered true and
`check_table_name` succeeded, wrapping exactly that name: the interpolated
identifier always comes out of a successful validation. -/
theorem spec_C2 (env : MutationEnv) (schema stmt : String) :
    (∀ name, Event.analyzeStmt stmt ∈ (analyze_by_table_name env schema name).2 →
      ∃ n, stmt = "ANALYZE " ++ n ∧ env.exists_result schema n = .ok true ∧
        (check_table_name env schema ⟨n⟩).1 = .ok ⟨n⟩) ∧
    (∀ names, Event.analyzeStmt stmt ∈ (analyze_tables env schema names).2 →
      ∃ n, stmt = "ANALYZE " ++ n ∧ env.exists_result schema n = .ok true ∧
        (check_table_name env schema ⟨n⟩).1 = .ok ⟨n⟩) := by
  constructor
  · intro name hmem
    obtain ⟨hs, he, hc⟩ := analyze_stmt_mem_abtn env schema name stmt hmem
    exact ⟨name, hs, he, hc⟩
  · intro names hmem
    obtain ⟨n, -, hs, he, hc⟩ := analyze_stmt_mem_tables env schema stmt names hmem
    exact ⟨n, hs, he, hc⟩

theorem spec_C2_witness :
    ∃ n, "ANALYZE t" = "ANALYZE " ++ n ∧
      envAllTrue.exists_result "public" n = .ok true ∧
      (check_table_name envAllTrue "public" ⟨n⟩).1 = .ok ⟨n⟩ :=
  (spec_C2 envAllTrue "public" "ANALYZE t").2 ["t"] (by
    show Event.analyzeStmt "ANALYZE t" ∈ (analyze_tables envAllTrue "public" ["t"]).2
    simp [analyze_tables, check_table_name, MutationEnv.table_exists, PgAnalyze.analyze,
      envAllTrue])

/-- C4: `analyze_tables` processes the names strictly in list order, one at a
time.  If every name of a prefix succeeds and the next name fails (in
validation or execution), the whole call returns exactly that error and its
database trace is exactly the traces of the prefix followed by the failing
name's trace — nothing after the failure is validated or executed.  When
every name succeeds the trace is the in-order concatenation of each name's
trace. -/
theorem spec_C4 (env : MutationEnv) (schema : String) :
    (∀ (pre : List String) (x : String) (post : List String) (e : IoError),
      (∀ n ∈ pre, (analyze_by_table_name env schema n).1 = .ok true) →
      (analyze_by_table_name env schema x).1 = .error e →
      analyze_tables env schema (pre ++ x :: post) =
        (.error e, (pre.map fun n => (analyze_by_table_name env schema n).2).flatten
          ++ (analyze_by_table_name env schema x).2)) ∧
    (∀ names : List String,
      (∀ n ∈ names, (analyze_by_table_name env schema n).1 = .ok true) →
      analyze_tables env schema names =
        (.ok true, (names.map fun n => (analyze_by_table_name env schema n).2).flatten)) := by
  constructor
  · intro pre x post e h1 h2
    induction pre with
    | nil =>
      rw [List.nil_append, analyze_tables_cons]
      rcases hb : analyze_by_table_name env schema x with ⟨r, tr⟩
      rw [hb] at h2
      simp only at h2
      subst h2
      simp [hb]
    | cons a pre ih =>
      rw [List.cons_append, analyze_tables_cons]
      rcases hb : analyze_by_table_name env schema a with ⟨r, tr⟩
      have ha : r = .ok true := by
        have := h1 a (List.mem_cons_self a pre)
        rw [hb] at this
        exact this
      subst ha
      have ih2 := ih fun n hn => h1 n (List.mem_cons_of_mem a hn)
      simp [ih2, hb]
  · intro names h1
    induction names with
    | nil => rfl
    | cons a rest ih =>
      rw [analyze_tables_cons]
      rcases hb : analyze_by_table_name env schema a with ⟨r, tr⟩
      have ha : r = .ok true := by
        have := h1 a (List.mem_cons_self a rest)
        rw [hb] at this
        exact this
      subst ha
      have ih2 := ih fun n hn => h1 n (List.mem_cons_of_mem a hn)
      simp [ih2, hb]

theorem spec_C4_witness :
    analyze_tables envT1T3 "public" (["t1"] ++ "t2" :: ["t3"]) =
      (.error (.notFound "t2"),
        ((["t1"]).map fun n => (analyze_by_table_name envT1T3 "public" n).2).flatten
          ++ (analyze_by_table_name envT1T3 "public" "t2").2) :=
  (spec_C4 envT1T3 "public").1 ["t1"] "t2" ["t3"] (.notFound "t2")
    (by
      intro n hn
      simp only [List.mem_singleton] at hn
      subst hn
      rfl)
    rfl

/-- C5: when the catalog reports existence, validation succeeds and the
checked name's text is exactly the original unchecked input. -/
theorem spec_C5 (env : MutationEnv) (schema name : String)
    (h : env.exists_result schema name = .ok true) :
    check_table_name env schema ⟨name⟩ = (.ok ⟨name⟩, [Event.existsCheck schema name]) ∧
    (CheckedTableName.mk name).text = name :=
  ⟨check_table_name_true env schema name h, rfl⟩

theorem spec_C5_witness :
    envAllTrue.exists_result "public" "MiXeD_case " = .ok true ∧
    check_table_name envAllTrue "public" ⟨"MiXeD_case "⟩ =
      (.ok ⟨"MiXeD_case "⟩, [Event.existsCheck "public" "MiXeD_case "]) :=
  ⟨rfl, (spec_C5 envAllTrue "public" "MiXeD_case " rfl).1⟩

/-- C6: `analyze_by_table_name` returns `Ok true` exactly when both the
validation and the execution succeed; any error from either step is
propagated as an error, never turned into `Ok false` — in particular the
not-found case is an error result. -/
theorem spec_C6 (env : MutationEnv) (schema name : String) :
    (∀ b, (analyze_by_table_name env schema name).1 = .ok b → b = true) ∧
    ((analyze_by_table_name env schema name).1 = .ok true ↔
      env.exists_result schema name = .ok true ∧ env.analyze_result name = .ok ()) ∧
    (∀ e, (check_table_name env schema ⟨name⟩).1 = .error e →
      (analyze_by_table_name env schema name).1 = .error e) ∧
    (env.exists_result schema name = .ok false →
      (analyze_by_table_name env schema name).1 = .error (.notFound name)) := by
  rw [analyze_by_table_name_eq]
  cases he : env.exists_result schema name with
  | error e =>
    refine ⟨by simp, by simp, ?_, by simp⟩
    intro e2 hc
    rw [check_table_name_driver_err env schema name e he] at hc
    simpa using hc
  | ok b =>
    cases b with
    | false =>
      refine ⟨by simp, by simp, ?_, by simp⟩
      intro e2 hc
      rw [check_table_name_false env schema name he] at hc
      simpa using hc
    | true =>
      cases ha : env.analyze_result name with
      | error e =>
        refine ⟨by simp, by simp [ha], ?_, by simp⟩
        intro e2 hc
        rw [check_table_name_true env schema name he] at hc
        simp at hc
      | ok u =>
        refine ⟨by simp, by simp [ha], ?_, by simp⟩
        intro e2 hc
        rw [check_table_name_true env schema name he] at hc
        simp at hc

theorem spec_C6_witness :
    (analyze_by_table_name envAllTrue "public" "w6").1 = .ok true :=
  (spec_C6 envAllTrue "public" "w6").2.1.mpr ⟨rfl, rfl⟩

/-- C8: validation is idempotent under an unchanged catalog: a checked name
obtained from a successful validation re-validates to the very same checked
name, its text unchanged. -/
theorem spec_C8 (env : MutationEnv) (schema name : String) (c : CheckedTableName)
    (h : (check_table_name env schema ⟨name⟩).1 = .ok c) :
    c.text = name ∧ (check_table_name env schema ⟨c.text⟩).1 = .ok c := by
  obtain ⟨he, rfl⟩ := (check_table_name_ok_iff env schema name c).mp h
  exact ⟨rfl, h⟩

theorem spec_C8_witness :
    (CheckedTableName.mk "t8").text = "t8" ∧
    (check_table_name envAllTrue "public" ⟨(CheckedTableName.mk "t8").text⟩).1 =
      .ok ⟨"t8"⟩ :=
  spec_C8 envAllTrue "public" "t8" ⟨"t8"⟩ rfl

/-- C10: `analyze_tables` on an empty name list returns true immediately,
issuing no existence lookup and no maintenance statement (empty trace). -/
theorem spec_C10 (env : MutationEnv) (schema : String) :
    analyze_tables env schema [] = (.ok true, []) := rfl

/-- C3 counterexample: with two catalog rows matching (schema, name), the
existence check returns `Ok(true)` — `fetch_optional` takes the first row —
instead of the error the claim requires for an unexpected row count. -/
theorem spec_C3_counterexample :
    (matchingRows dupCatalog "s" "t").length = 2 ∧
    PgTabChk.table_exists dupCatalog "s" "t" = .ok true :=
  ⟨rfl, rfl⟩

/-- C3 (amended): exactly one matching row yields true and zero matching
rows yields false; a fetched scalar other than 1 yields the
unexpected-value error and a driver failure yields an infrastructure
error, both distinct from the not-found error; but one-or-more matching
rows always yield true, because only the first fetched row is inspected. -/
theorem spec_C3 :
    (∀ cat s n, (matchingRows cat s n).length = 1 →
      PgTabChk.table_exists cat s n = .ok true) ∧
    (∀ cat s n, (matchingRows cat s n).length = 0 →
      PgTabChk.table_exists cat s n = .ok false) ∧
    (∀ i : Int, i ≠ 1 →
      table_exists_core (.ok (some (some i))) = .error (.unexpectedValue i)) ∧
    (∀ (i : Int) (nm : String), IoError.unexpectedValue i ≠ IoError.notFound nm) ∧
    (∀ m : String, table_exists_core (.error m) = .error (.infra m)) ∧
    (∀ (m nm : String), IoError.infra m ≠ IoError.notFound nm) ∧
    (∀ cat s n, 1 ≤ (matchingRows cat s n).length →
      PgTabChk.table_exists cat s n = .ok true) := by
  refine ⟨?_, ?_, ?_, ?_, ?_, ?_, ?_⟩
  · intro cat s n h
    obtain ⟨r, hr⟩ := List.length_eq_one.mp h
    simp [PgTabChk.table_exists, table_exists_core, hr]
  · intro cat s n h
    rw [List.length_eq_zero] at h
    simp [PgTabChk.table_exists, table_exists_core, h]
  · intro i hi
    simp [table_exists_core, hi]
  · intro i nm h
    exact absurd h (by simp)
  · intro m
    rfl
  · intro m nm h
    exact absurd h (by simp)
  · intro cat s n h
    cases hl : matchingRows cat s n with
    | nil => rw [hl] at h; simp at h
    | cons a t => simp [PgTabChk.table_exists, table_exists_core, hl]

theorem spec_C3_witness :
    PgTabChk.table_exists [⟨"s", "t"⟩] "s" "t" = .ok true ∧
    PgTabChk.table_exists [] "s" "t" = .ok false ∧
    table_exists_core (.ok (some (some 2))) = .error (.unexpectedValue 2) ∧
    IoError.unexpectedValue 2 ≠ IoError.notFound "t" :=
  ⟨spec_C3.1 [⟨"s", "t"⟩] "s" "t" rfl, spec_C3.2.1 [] "s" "t" rfl,
    spec_C3.2.2.1 2 (by decide), spec_C3.2.2.2.1 2 "t"⟩

/-- C7: `get_table_names` defaults an absent schema to "public" and an
absent pattern to "%" (which matches every name); for any catalog it
returns, eagerly and in catalog order, exactly the names of rows in the
given schema whose name matches the pattern under case-sensitive SQL
`LIKE` semantics — witnessed on the spec's fixture, including a
case-sensitivity check. -/
theorem spec_C7 :
    (∀ cat, get_table_names cat none none =
      get_table_names cat (some "public") (some "%")) ∧
    (∀ cat s p, get_table_names cat (some s) (some p) =
      .ok ((cat.filter fun r => r.table_schema == s && sqlLike p r.table_name).map
        fun r => r.table_name)) ∧
    (∀ s : String, sqlLike "%" s = true) ∧
    get_table_names fixtureCatalog (some "public") (some "user_%") =
      .ok ["user_accounts", "user_sessions"] ∧
    sqlLike "user_%" "USER_ACCOUNTS" = false := by
  refine ⟨fun cat => rfl, ?_, ?_, ?_, ?_⟩
  · intro cat s p
    exact collect_scalars_names _
  · intro s
    show likeMatch "%".toList s.toList = true
    exact likeMatch_percent _
  · simp [get_table_names, fixtureCatalog, sqlLike, likeMatch, collect_scalars]
  · simp [sqlLike, likeMatch]

/-- C9: if `DB_CONNECTION_STRING` is absent, `sub` panics before any service
work (its outcome does not depend on the pipeline) and the process exits
non-zero printing the message; any pipeline error is printed and exits
non-zero; the success path exits 0. -/
theorem spec_C9 (envVar : String → Option String)
    (run : String → String → Except IoError Unit) :
    (envVar Api.connEnvVar = none →
      Api.sub envVar run = .panicked Api.connMissingMsg ∧
      (∀ run2, Api.sub envVar run2 = Api.sub envVar run) ∧
      Api.main envVar run = (101, some Api.connMissingMsg) ∧
      (Api.main envVar run).1 ≠ 0) ∧
    (∀ e, Api.sub envVar run = .failed e →
      Api.main envVar run = (1, some e.message) ∧ (Api.main envVar run).1 ≠ 0) ∧
    (Api.sub envVar run = .served → Api.main envVar run = (0, none)) := by
  refine ⟨?_, ?_, ?_⟩
  · intro h
    refine ⟨by simp [Api.sub, h], fun run2 => by simp [Api.sub, h], ?_, ?_⟩ <;>
      simp [Api.main, Api.sub, h]
  · intro e h
    constructor <;> simp [Api.main, h]
  · intro h
    simp [Api.main, h]

theorem spec_C9_witness :
    Api.main envNone runOk = (101, some Api.connMissingMsg) ∧
    (Api.main envNone runOk).1 ≠ 0 :=
  ⟨((spec_C9 envNone runOk).1 rfl).2.2.1, ((spec_C9 envNone runOk).1 rfl).2.2.2⟩
